import Mathlib

/-!
Verification of the react-redux demo repository.

The development has two parts:

1. `IOEff` — a shallow embedding of the `IO` class from the repository's
   IO-monad guide (src/unnamed/part_002 and src/IO_MONAD_GUIDE.md).
   The JavaScript class stores a zero-argument effectful operation; here the
   operation is modelled with explicit world passing: it receives a world of
   type `σ` and returns either a normal result or a thrown error (JavaScript
   exceptions are modelled by `Except String`), together with the updated
   world.  Construction (`of`/`map`/`chain`) builds values that never receive
   a world, so the world can only change when `run` (source name:
   unsafePerformIO) is applied — this is the formal content of laziness.

2. A reactive state-container model — reducers, action creators and the two
   middlewares are translated from the source files; the redux library glue
   (createStore / applyMiddleware / combineReducers) is not part of the
   repository, so it is modelled from the spec.  Every observable action of
   the pipeline (console logging, reducer application, subscriber
   notification, timer scheduling) is emitted into an event trace so that
   ordering claims become statements about lists.
-/

namespace ReactReduxDemo

/-- Deferred-effect wrapper, translated from the `IO` class of
src/unnamed/part_002 (lines 102-121): the class stores the wrapped
zero-argument operation as its only field (source field name:
unsafePerformIO).  `run e w` executes the wrapped operation on world `w`. -/
structure IOEff (σ : Type) (α : Type) where
  run : σ → Except String α × σ

/-- Translated from the source: `static of(value) { return new IO(() => value); }`. -/
def IOEff.of (x : α) : IOEff σ α :=
  ⟨fun w => (Except.ok x, w)⟩

/-- Translated from the source:
`map(f) { return new IO(() => f(this.unsafePerformIO())); }`;
an exception thrown by the inner operation propagates before `f` is applied. -/
def IOEff.map (e : IOEff σ α) (f : α → β) : IOEff σ β :=
  ⟨fun w =>
    match e.run w with
    | (Except.ok a, w1) => (Except.ok (f a), w1)
    | (Except.error msg, w1) => (Except.error msg, w1)⟩

/-- Translated from the source:
`chain(f) { return new IO(() => f(this.unsafePerformIO()).unsafePerformIO()); }`;
an exception thrown by the inner operation propagates before `f` is applied. -/
def IOEff.chain (e : IOEff σ α) (f : α → IOEff σ β) : IOEff σ β :=
  ⟨fun w =>
    match e.run w with
    | (Except.ok a, w1) => (f a).run w1
    | (Except.error msg, w1) => (Except.error msg, w1)⟩

/-- Memoizing combinator, translated from src/unnamed/part_002 lines 321-332:
`let cache; let computed = false; return new IO(() => { if (!computed) {
cache = io.unsafePerformIO(); computed = true; } return cache; });`.
The mutable closure variables `cache`/`computed` persist across `run` calls of
the returned object, so they are threaded through the world as an
`Option α` component (`none` ↔ `computed === false`).  Note that when the
underlying operation throws, the source's `computed = true` line is never
reached, so nothing is cached. -/
def memoize (e : IOEff σ α) : IOEff (σ × Option α) α :=
  ⟨fun w =>
    match w.2 with
    | some c => (Except.ok c, w)
    | none =>
      match e.run w.1 with
      | (Except.ok v, w1) => (Except.ok v, (w1, some v))
      | (Except.error msg, w1) => (Except.error msg, (w1, none))⟩

/-- An instrumented operation over the counting world `σ := Nat`: it returns
`x` and bumps the counter that records how many times the wrapped operation
has executed (the spec's "side-effect counter incremented inside the wrapped
operation"). -/
def countingOp (x : α) : IOEff Nat α :=
  ⟨fun n => (Except.ok x, n + 1)⟩

/-- An instrumented operation that always throws (models
`new IO(() => { count++; throw new Error("boom"); })`); the counting world
records how many times it has executed. -/
def alwaysThrow : IOEff Nat Unit :=
  ⟨fun n => (Except.error "boom", n + 1)⟩

/-- Instrumentation of an arbitrary operation `op : σ → Except String α × σ`
with an execution counter: `instrument op` behaves exactly like `op` on the
`σ` component and additionally counts each execution. -/
def instrument (op : σ → Except String α × σ) : IOEff (Nat × σ) α :=
  ⟨fun w =>
    match op w.2 with
    | (r, s) => (r, (w.1 + 1, s))⟩

/-- A plain tagged action object `{ type: string }`, as produced by the
action creators in src/src/actions/counterActions.js. -/
structure PlainAction where
  type : String
deriving DecidableEq, Repr

/-- The JavaScript values that can reach a reducer's second positional
parameter in this program: a string literal or a plain action object. -/
inductive JSVal where
  | str (s : String)
  | actionObj (a : PlainAction)
deriving DecidableEq, Repr

/-- JavaScript strict equality (`===`, the comparison a `switch` statement
performs against its `case` labels) between a value and a string literal:
true only when the value is a string with the same characters; an object is
never strictly equal to a string. -/
def jsStrictEqStr : JSVal → String → Bool
  | JSVal.str s, t => s == t
  | JSVal.actionObj _, _ => false

/-- The counter slice state of src/unnamed/part_003 (counterReducer):
`{ count: 0, loading: false, lastAction: null }`. -/
structure CounterState where
  count : Int
  loading : Bool
  lastAction : Option String
deriving DecidableEq, Repr

def counterInitialState : CounterState :=
  { count := 0, loading := false, lastAction := none }

/-- Translated from src/unnamed/part_003 (counterReducer): a switch on
`action.type` with cases INCREMENT / DECREMENT / RESET / INCREMENT_ASYNC and
a default branch returning the state argument unchanged.  (The reducer's
`console.log` is a debugging aid with no bearing on the returned state.) -/
def counterReducer (state : CounterState) (action : PlainAction) : CounterState :=
  if action.type = "INCREMENT" then
    { state with count := state.count + 1, lastAction := some "INCREMENT" }
  else if action.type = "DECREMENT" then
    { state with count := state.count - 1, lastAction := some "DECREMENT" }
  else if action.type = "RESET" then
    { state with count := 0, lastAction := some "RESET" }
  else if action.type = "INCREMENT_ASYNC" then
    { state with loading := true, lastAction := some "INCREMENT_ASYNC_START" }
  else state

/-- The add slice state of src/unnamed/part_004 (addReducer): `{ count: 0 }`. -/
structure AddState where
  count : Int
deriving DecidableEq, Repr

def addInitialState : AddState := { count := 0 }

/-- Translated from src/unnamed/part_004 (addReducer).  The source declares
the reducer as `(state = initialState, type) => { switch(type) {...} }`: the
second positional parameter — which redux's combineReducers always fills with
the whole action object — is matched by the `switch` against the string
literals `'ADD-TWO'` and `'ADD-FOUR'`, so the parameter is modelled as the
`JSVal` it receives and each `case` label as a strict-equality test. -/
def addReducer (state : AddState) (type : JSVal) : AddState :=
  if jsStrictEqStr type "ADD-TWO" then { state with count := state.count + 2 }
  else if jsStrictEqStr type "ADD-FOUR" then { state with count := state.count + 4 }
  else state

/-- The combined state shape produced by src/src/reducers/index.js:
`{ counter: ..., add: ... }`. -/
structure RootState where
  counter : CounterState
  add : AddState
deriving DecidableEq, Repr

/-- Modelled from the spec: the transition function of the container.  The
repository builds it as `combineReducers({counter: counterReducer, add:
addReducer})` (src/src/reducers/index.js), but `combineReducers` is redux
library code not in the repository; per redux's documented semantics — and
the spec's single `TransitionFunction` (§3) — it applies each slice reducer
to its own slice, passing the whole dispatched action object as the
reducer's second positional argument. -/
def rootReducer (state : RootState) (action : PlainAction) : RootState :=
  { counter := counterReducer state.counter action,
    add := addReducer state.add (JSVal.actionObj action) }

def initialRootState : RootState :=
  { counter := counterInitialState, add := addInitialState }

/-- Translated from src/src/actions/counterActions.js:
`increment = () => ({ type: INCREMENT })` with `INCREMENT = 'INCREMENT'`. -/
def increment : PlainAction := { type := "INCREMENT" }

/-- The synchronous operations a procedure-command (thunk) body can perform,
as a small syntactic language the async middleware interprets with the
container's `dispatch` and `getState`: `logState` is
`console.log(getState())`; `setTimeout d later` registers `later` to run
after `d` milliseconds (the callback runs in a wholly separate later pass);
`dispatchNow a` is a synchronous `dispatch(a)` of a plain action. -/
inductive ThunkOp where
  | logState
  | setTimeout (delayMs : Nat) (later : List ThunkOp)
  | dispatchNow (a : PlainAction)

/-- Translated from src/src/actions/counterActions.js lines 25-32
(incrementAsyncThunk): the returned procedure logs the current state via
`getState`, then schedules `dispatch(increment())` after 1000 ms; it
performs no synchronous dispatch and returns undefined. -/
def incrementAsyncThunkOps : List ThunkOp :=
  [ThunkOp.logState, ThunkOp.setTimeout 1000 [ThunkOp.dispatchNow increment]]

/-- A dispatched command: a plain tagged action object, or a function
(procedure-command / thunk) — mirroring the `typeof action === 'function'`
distinction made by src/src/middleware/asyncMiddleware.js. -/
inductive Action where
  | plain (a : PlainAction)
  | fn (ops : List ThunkOp)

/-- Observable events of the dispatch pipeline, recorded in chronological
order: `logBefore`/`logAfter` are the logger middleware's console output on
the way in (action + before-state) and on the way out (after-state);
`asyncDetect` is the async middleware's log on seeing a function action;
`thunkGetState` is a thunk body logging the current state; `scheduled` is a
`setTimeout` registration; `reduced` marks the terminal step applying the
transition function; `notifyLog` is the store.js subscriber logging the
state. -/
inductive Event where
  | logBefore (a : Action) (s : RootState)
  | logAfter (s : RootState)
  | asyncDetect (ops : List ThunkOp)
  | thunkGetState (s : RootState)
  | scheduled (delayMs : Nat) (later : List ThunkOp)
  | reduced (a : PlainAction)
  | notifyLog (s : RootState)

def Event.isReduced : Event → Bool
  | Event.reduced _ => true
  | _ => false

/-- The container's observable state: the redux state, the re-entrancy flag
(modelled from the spec §3/§7: true exactly while a dispatch is applying the
transition function and notifying subscribers), and the event trace. -/
structure St where
  state : RootState
  isDispatching : Bool
  events : List Event

def emit (st : St) (e : Event) : St :=
  { st with events := st.events ++ [e] }

/-- Dispatch failures: `reentrant` is the spec's ReentrantDispatchError (§7);
`notPlainObject` is redux's error for a non-object action reaching the base
dispatch; `outOfFuel` is an artifact of the fuelled model, never reached at
the fuel used. -/
inductive DispatchError where
  | reentrant
  | notPlainObject
  | outOfFuel
deriving DecidableEq, Repr

/-- The value a dispatch returns: redux's base dispatch returns the action
object itself; a thunk handled by the async middleware returns undefined. -/
inductive RetVal where
  | ract (a : PlainAction)
  | undef
deriving DecidableEq, Repr

abbrev DispResult := Except DispatchError RetVal

abbrev DispatchFn := Action → St → DispResult × St

/-- The `store` object handed to each middleware factory: `getState` and the
container's own (late-bound) `dispatch`. -/
structure MiddlewareAPI where
  getState : St → RootState
  dispatch : DispatchFn

def mkAPI (d : DispatchFn) : MiddlewareAPI :=
  { getState := fun st => st.state, dispatch := d }

/-- Translated from src/src/middleware/loggerMiddleware.js: it logs the
action and the before-state (`store.getState()`), calls `next(action)`, logs
the after-state (`store.getState()`), and returns `next`'s result unchanged.
The console.log lines on the way in are modelled as the single event
`logBefore`, those on the way out as `logAfter`. -/
def loggerMiddleware (api : MiddlewareAPI) (next : DispatchFn) : DispatchFn :=
  fun action st =>
    let st1 := emit st (Event.logBefore action (api.getState st))
    let r := next action st1
    (r.1, emit r.2 (Event.logAfter (api.getState r.2)))

/-- Interpretation of a procedure-command body applied to the container's
`dispatch` and `getState` — the two arguments the async middleware passes to
the procedure (`action(store.dispatch, store.getState)`).  The result of a
synchronous inner dispatch is discarded, as in the thunk sources; the
procedure itself returns undefined. -/
def runThunk (api : MiddlewareAPI) : List ThunkOp → St → DispResult × St
  | [], st => (Except.ok RetVal.undef, st)
  | ThunkOp.logState :: rest, st =>
      runThunk api rest (emit st (Event.thunkGetState (api.getState st)))
  | ThunkOp.setTimeout d later :: rest, st =>
      runThunk api rest (emit st (Event.scheduled d later))
  | ThunkOp.dispatchNow a :: rest, st =>
      runThunk api rest (api.dispatch (Action.plain a) st).2

/-- Translated from src/src/middleware/asyncMiddleware.js:
`if (typeof action === 'function') { console.log(...); return
action(store.dispatch, store.getState); } return next(action);`. -/
def asyncMiddleware (api : MiddlewareAPI) (next : DispatchFn) : DispatchFn :=
  fun action st =>
    match action with
    | Action.fn ops => runThunk api ops (emit st (Event.asyncDetect ops))
    | Action.plain a => next (Action.plain a) st

/-- One step of a subscriber callback: the subscriber registered in
src/src/store/store.js logs the current state (`logState`); `nestedDispatch`
models a subscriber that attempts `store.dispatch(a)` from inside the
notification pass, observing the outcome itself (so the notification pass
continues). -/
inductive CbOp where
  | logState
  | nestedDispatch (a : PlainAction)
deriving DecidableEq, Repr

def notifyOne (nested : DispatchFn) : List CbOp → St → St
  | [], st => st
  | CbOp.logState :: rest, st =>
      notifyOne nested rest (emit st (Event.notifyLog st.state))
  | CbOp.nestedDispatch a :: rest, st =>
      notifyOne nested rest (nested (Action.plain a) st).2

/-- Notification pass over a snapshot of the subscriber list, in
registration order (spec §4.1). -/
def notifyAll (nested : DispatchFn) (subs : List (List CbOp)) (st : St) : St :=
  subs.foldl (fun s cb => notifyOne nested cb s) st

/-- Modelled from the spec: the terminal dispatch `T` of §4.2 — redux's
`createStore` dispatch, which is library code not in the repository.  Per
the spec (§4.1, §7): dispatching while a dispatch is in progress fails with
ReentrantDispatchError and leaves the state unchanged; otherwise the
transition function computes the new state, the container stores it and
synchronously notifies the subscribers in registration order before
returning the action.  A non-object action reaching the base dispatch is an
error (`notPlainObject`) — unreachable through the compiled chain, because
the async middleware intercepts every function action. -/
def baseDispatch (nested : DispatchFn) (subs : List (List CbOp)) : DispatchFn :=
  fun action st =>
    match action with
    | Action.fn _ => (Except.error DispatchError.notPlainObject, st)
    | Action.plain a =>
      if st.isDispatching then (Except.error DispatchError.reentrant, st)
      else
        let st2 : St := { state := rootReducer st.state a, isDispatching := true,
                          events := st.events ++ [Event.reduced a] }
        let st3 := notifyAll nested subs st2
        (Except.ok (RetVal.ract a), { st3 with isDispatching := false })

abbrev Middleware := MiddlewareAPI → DispatchFn → DispatchFn

/-- Modelled from the spec §4.2: given interceptors `[i1, ..., iN]` and a
terminal function `T`, the compiled chain is `i1(i2(...iN(T)...))` — the
right fold of application over the interceptor list (redux's applyMiddleware
composes the middleware array exactly this way). -/
def compileChain (api : MiddlewareAPI) (mws : List Middleware)
    (terminal : DispatchFn) : DispatchFn :=
  mws.foldr (fun mw acc => mw api acc) terminal

/-- Fuelled dispatch of the container built in src/src/store/store.js:
`createStore(rootReducer, applyMiddleware(loggerMiddleware,
asyncMiddleware))`.  The fuel bounds the nesting depth of
dispatch-within-dispatch (a thunk's synchronous dispatch, or a subscriber's
nested dispatch attempt); nesting in this program is bounded by 3 levels, so
fuel 4 is never exhausted.  The middleware API's `dispatch` is the
container's own dispatch at the remaining fuel, matching redux's late-bound
`store.dispatch` handed to middleware and thunks. -/
def dispatchF (subs : List (List CbOp)) : Nat → DispatchFn
  | 0 => fun _ st => (Except.error DispatchError.outOfFuel, st)
  | n + 1 =>
    compileChain (mkAPI (dispatchF subs n)) [loggerMiddleware, asyncMiddleware]
      (baseDispatch (dispatchF subs n) subs)

def dispatchTop (subs : List (List CbOp)) : DispatchFn := dispatchF subs 4

/-- The one subscriber registered in src/src/store/store.js: it logs the
current state on every notification. -/
def storeSubs : List (List CbOp) := [[CbOp.logState]]

/-- The dispatch of the demo's store, with its registered logging
subscriber. -/
def storeDispatch : DispatchFn := dispatchTop storeSubs

/-- The store right after creation: redux initializes each slice through the
reducers' default parameters (its init action takes every `default`
branch). -/
def initialStore : St :=
  { state := initialRootState, isDispatching := false, events := [] }

def dispatchAll (d : DispatchFn) (acts : List Action) (st : St) : St :=
  acts.foldl (fun s a => (d a s).2) st

/-- True exactly on the thunk operation that performs a synchronous
dispatch. -/
def ThunkOp.isDispatchNow : ThunkOp → Bool
  | ThunkOp.dispatchNow _ => true
  | _ => false

/-- How many times the transition function has been applied, read off the
event trace. -/
def reducedCount (l : List Event) : Nat := (l.filter Event.isReduced).length

/-- A dispatch function only ever appends to the event trace. -/
def EventsMono (D : DispatchFn) : Prop :=
  ∀ (a : Action) (st : St), ∃ ex, ((D a st).2).events = st.events ++ ex

/-- A dispatch function never changes the `add` slice of the state. -/
def PreservesAdd (D : DispatchFn) : Prop :=
  ∀ (a : Action) (st : St), ((D a st).2).state.add = st.state.add

theorem emit_events (st : St) (e : Event) : (emit st e).events = st.events ++ [e] := rfl

theorem emit_state (st : St) (e : Event) : (emit st e).state = st.state := rfl

theorem emit_flag (st : St) (e : Event) : (emit st e).isDispatching = st.isDispatching := rfl

theorem rootReducer_add (rs : RootState) (a : PlainAction) :
    (rootReducer rs a).add = rs.add := rfl

theorem reducedCount_append (l1 l2 : List Event) :
    reducedCount (l1 ++ l2) = reducedCount l1 + reducedCount l2 := by
  simp [reducedCount, List.filter_append]

/-- One guarded step: any dispatch through the full compiled chain while a
dispatch is already in progress returns ReentrantDispatchError, leaving the
state and the flag unchanged (only the logger's two log events are added). -/
theorem dispatchF_reentrant (subs : List (List CbOp)) (n : Nat) (a : PlainAction)
    (st : St) (h : st.isDispatching = true) :
    dispatchF subs (n + 1) (Action.plain a) st
      = (Except.error DispatchError.reentrant,
         emit (emit st (Event.logBefore (Action.plain a) st.state))
           (Event.logAfter st.state)) := by
  simp [dispatchF, compileChain, loggerMiddleware, asyncMiddleware, baseDispatch, mkAPI, emit, h]

/-- C3: Effect laziness.  Construction (`of`, `map`, `chain`) builds values
of type `IOEff` without ever receiving a world, so the execution counter
necessarily still holds its pre-construction value (0) when `run` is first
applied; the equations below make this precise by being parametric in the
counter value `c` at `run` time: the first shows that for the pipeline
`IO.of(x).map(f).chain(g)` (with `g` returning an instrumented effect)
nothing executes before `run` and a single `run` executes `g`'s operation
exactly once; the second instruments the wrapped base operation as well — a
counter incremented inside the wrapped operation is still `c` (0 at the
spec's observation point) when `run` starts, and one `run` bumps it exactly
once per instrumented operation, never at construction time. -/
theorem c3_effect_laziness :
    (∀ (x : Nat) (f : Nat → Nat) (gv : Nat → Nat) (c : Nat),
      (((IOEff.of x).map f).chain (fun a => countingOp (gv a))).run c
        = (Except.ok (gv (f x)), c + 1))
    ∧ (∀ (x : Nat) (f : Nat → Nat) (gv : Nat → Nat) (c : Nat),
      (((countingOp x).map f).chain (fun a => countingOp (gv a))).run c
        = (Except.ok (gv (f x)), c + 2)) := by
  constructor <;> intro x f gv c <;> rfl

/-- C4: Chain associativity.  For every deferred effect `e` and
effect-returning functions `f` and `g`, running `e.chain(f).chain(g)` and
running `e.chain(x => f(x).chain(g))` from the same world produce the same
result and the same final world.  Since the world type `σ` is arbitrary —
in particular it can be a log of every side effect performed — equality of
final worlds says both executions perform identical side effects,
identically many times, in the same order. -/
theorem c4_chain_associativity (σ α β γ : Type) (e : IOEff σ α)
    (f : α → IOEff σ β) (g : β → IOEff σ γ) (w : σ) :
    ((e.chain f).chain g).run w = (e.chain (fun x => (f x).chain g)).run w := by
  simp only [IOEff.chain]
  rcases h : e.run w with ⟨r, w1⟩
  cases r <;> simp [h]

/-- C5 counterexample: the claim "memoize(e) runs the underlying operation
of e at most once across any number of run calls — including when the
underlying operation throws on its first execution" is false on the code.
For the always-throwing instrumented operation, the first `run` leaves the
source's `computed` flag false (`computed = true` is never reached after the
throw), so a second `run` executes the underlying operation again: after two
`run` calls the execution counter is 2, not at most 1. -/
theorem c5_counterexample :
    ((memoize alwaysThrow).run (0, none)).2 = ((1 : Nat), (none : Option Unit))
    ∧ ((memoize alwaysThrow).run (((memoize alwaysThrow).run (0, none)).2)).2 = (2, none)
    ∧ ¬ ((memoize alwaysThrow).run (((memoize alwaysThrow).run (0, none)).2)).2.1 ≤ 1 := by
  refine ⟨rfl, rfl, ?_⟩
  decide

/-- C5 (amended): `memoize(e)` runs the underlying operation of `e` at most
once across any number of `run` calls provided its first execution returns
normally, and every later `run` returns the cached result of that single
execution without touching the world again; if the underlying operation
throws, the error propagates to the caller of `run`, nothing is cached, and
a subsequent `run` executes the underlying operation again. -/
theorem c5_memoize_amended {σ α : Type} (e : IOEff σ α) (w w1 : σ) (v : α)
    (h : e.run w = (Except.ok v, w1)) :
    (memoize e).run (w, none) = (Except.ok v, (w1, some v))
    ∧ (∀ (u : σ) (c : α), (memoize e).run (u, some c) = (Except.ok c, (u, some c)))
    ∧ (∀ (u u2 : σ) (msg : String), e.run u = (Except.error msg, u2) →
        (memoize e).run (u, none) = (Except.error msg, (u2, none))) := by
  refine ⟨?_, ?_, ?_⟩
  · simp [memoize, h]
  · intro u c
    rfl
  · intro u u2 msg hmsg
    simp [memoize, hmsg]

/-- C5 witness: the amended theorem applied to the instrumented counting
operation returning 42, starting from execution counter 0. -/
theorem c5_memoize_amended_witness :
    (memoize (countingOp (42 : Nat))).run (0, none) = (Except.ok 42, (1, some 42)) :=
  (c5_memoize_amended (countingOp 42) 0 1 42 rfl).1

/-- C6: No implicit memoization.  For every operation `op`, the deferred
effect built from its instrumented version executes the operation exactly
once per `run` call: one `run` takes the execution counter from `n` to
`n + 1`, a second `run` takes it to `n + 2`, and each run's result is
exactly `op` applied to the current underlying world — no state is retained
between calls. -/
theorem c6_no_implicit_memoization {σ α : Type} (op : σ → Except String α × σ)
    (n : Nat) (s : σ) :
    ((instrument op).run (n, s)).2.1 = n + 1
    ∧ ((instrument op).run ((instrument op).run (n, s)).2).2.1 = n + 2
    ∧ ((instrument op).run (n, s)).1 = (op s).1 := by
  rcases h : op s with ⟨r, s2⟩
  rcases h2 : op s2 with ⟨r2, s3⟩
  refine ⟨?_, ?_, ?_⟩ <;> simp [instrument, h, h2]

/-- If nested dispatch attempts preserve state and flag while the flag is
set, a subscriber callback run during notification preserves them too. -/
theorem notifyOne_preserves (D : DispatchFn)
    (hD : ∀ (b : PlainAction) (u : St), u.isDispatching = true →
      ((D (Action.plain b) u).2).state = u.state
      ∧ ((D (Action.plain b) u).2).isDispatching = true) :
    ∀ (cb : List CbOp) (st : St), st.isDispatching = true →
      (notifyOne D cb st).state = st.state
      ∧ (notifyOne D cb st).isDispatching = true := by
  intro cb
  induction cb with
  | nil =>
    intro st h
    exact ⟨rfl, h⟩
  | cons op rest ih =>
    intro st h
    cases op with
    | logState =>
      have h2 := ih (emit st (Event.notifyLog st.state)) h
      exact ⟨h2.1, h2.2⟩
    | nestedDispatch a =>
      have hda := hD a st h
      have h2 := ih ((D (Action.plain a) st).2) hda.2
      exact ⟨h2.1.trans hda.1, h2.2⟩

/-- The whole notification pass preserves state and flag while the flag is
set, provided nested dispatch attempts do. -/
theorem notifyAll_preserves (D : DispatchFn)
    (hD : ∀ (b : PlainAction) (u : St), u.isDispatching = true →
      ((D (Action.plain b) u).2).state = u.state
      ∧ ((D (Action.plain b) u).2).isDispatching = true) :
    ∀ (subs : List (List CbOp)) (st : St), st.isDispatching = true →
      (notifyAll D subs st).state = st.state
      ∧ (notifyAll D subs st).isDispatching = true := by
  intro subs
  induction subs with
  | nil =>
    intro st h
    exact ⟨rfl, h⟩
  | cons cb rest ih =>
    intro st h
    have h1 := notifyOne_preserves D hD cb st h
    have h2 := ih (notifyOne D cb st) h1.2
    exact ⟨h2.1.trans h1.1, h2.2⟩

/-- When no dispatch is in progress, the terminal step succeeds: it returns
the action, stores the transition function's result, and releases the flag;
subscriber callbacks cannot change the state because every nested dispatch
attempt they make is guarded. -/
theorem baseDispatch_ok (D : DispatchFn) (subs : List (List CbOp)) (a : PlainAction)
    (st : St) (h : st.isDispatching = false)
    (hD : ∀ (b : PlainAction) (u : St), u.isDispatching = true →
      ((D (Action.plain b) u).2).state = u.state
      ∧ ((D (Action.plain b) u).2).isDispatching = true) :
    (baseDispatch D subs (Action.plain a) st).1 = Except.ok (RetVal.ract a)
    ∧ ((baseDispatch D subs (Action.plain a) st).2).state = rootReducer st.state a
    ∧ ((baseDispatch D subs (Action.plain a) st).2).isDispatching = false := by
  have hN := notifyAll_preserves D hD subs
    { state := rootReducer st.state a, isDispatching := true,
      events := st.events ++ [Event.reduced a] } rfl
  refine ⟨?_, ?_, ?_⟩
  · simp [baseDispatch, h]
  · simp only [baseDispatch, h]
    simpa using hN.1
  · simp [baseDispatch, h]

/-- A plain action dispatched through the full chain with no dispatch in
progress: the result is ok, the new state is the transition function's
output, and the flag is released — for arbitrary subscribers, including ones
that attempt nested dispatches. -/
theorem dispatchF_plain_ok (subs : List (List CbOp)) (n : Nat) (a : PlainAction)
    (st : St) (h : st.isDispatching = false) :
    (dispatchF subs (n + 2) (Action.plain a) st).1 = Except.ok (RetVal.ract a)
    ∧ ((dispatchF subs (n + 2) (Action.plain a) st).2).state = rootReducer st.state a
    ∧ ((dispatchF subs (n + 2) (Action.plain a) st).2).isDispatching = false := by
  have hD : ∀ (b : PlainAction) (u : St), u.isDispatching = true →
      ((dispatchF subs (n + 1) (Action.plain b) u).2).state = u.state
      ∧ ((dispatchF subs (n + 1) (Action.plain b) u).2).isDispatching = true := by
    intro b u hu
    rw [dispatchF_reentrant subs n b u hu]
    exact ⟨rfl, hu⟩
  have hB := baseDispatch_ok (dispatchF subs (n + 1)) subs a
    (emit st (Event.logBefore (Action.plain a) st.state)) h hD
  exact ⟨hB.1, hB.2.1, hB.2.2⟩

/-- Interpreting a thunk body only appends to the event trace. -/
theorem runThunk_mono (api : MiddlewareAPI) (hD : EventsMono api.dispatch) :
    ∀ (ops : List ThunkOp) (st : St),
      ∃ ex, ((runThunk api ops st).2).events = st.events ++ ex := by
  intro ops
  induction ops with
  | nil =>
    intro st
    exact ⟨[], by simp [runThunk]⟩
  | cons op rest ih =>
    intro st
    cases op with
    | logState =>
      obtain ⟨ex, hex⟩ := ih (emit st (Event.thunkGetState (api.getState st)))
      refine ⟨Event.thunkGetState (api.getState st) :: ex, ?_⟩
      rw [show (runThunk api (ThunkOp.logState :: rest) st).2
            = (runThunk api rest (emit st (Event.thunkGetState (api.getState st)))).2 from rfl,
        hex, emit_events, List.append_assoc]
      rfl
    | setTimeout d later =>
      obtain ⟨ex, hex⟩ := ih (emit st (Event.scheduled d later))
      refine ⟨Event.scheduled d later :: ex, ?_⟩
      rw [show (runThunk api (ThunkOp.setTimeout d later :: rest) st).2
            = (runThunk api rest (emit st (Event.scheduled d later))).2 from rfl,
        hex, emit_events, List.append_assoc]
      rfl
    | dispatchNow a =>
      obtain ⟨ex1, hex1⟩ := hD (Action.plain a) st
      obtain ⟨ex2, hex2⟩ := ih ((api.dispatch (Action.plain a) st).2)
      refine ⟨ex1 ++ ex2, ?_⟩
      rw [show (runThunk api (ThunkOp.dispatchNow a :: rest) st).2
            = (runThunk api rest ((api.dispatch (Action.plain a) st).2)).2 from rfl,
        hex2, hex1, List.append_assoc]

/-- A subscriber callback only appends to the event trace. -/
theorem notifyOne_mono (D : DispatchFn) (hD : EventsMono D) :
    ∀ (cb : List CbOp) (st : St),
      ∃ ex, (notifyOne D cb st).events = st.events ++ ex := by
  intro cb
  induction cb with
  | nil =>
    intro st
    exact ⟨[], by simp [notifyOne]⟩
  | cons op rest ih =>
    intro st
    cases op with
    | logState =>
      obtain ⟨ex, hex⟩ := ih (emit st (Event.notifyLog st.state))
      refine ⟨Event.notifyLog st.state :: ex, ?_⟩
      rw [show notifyOne D (CbOp.logState :: rest) st
            = notifyOne D rest (emit st (Event.notifyLog st.state)) from rfl,
        hex, emit_events, List.append_assoc]
      rfl
    | nestedDispatch a =>
      obtain ⟨ex1, hex1⟩ := hD (Action.plain a) st
      obtain ⟨ex2, hex2⟩ := ih ((D (Action.plain a) st).2)
      refine ⟨ex1 ++ ex2, ?_⟩
      rw [show notifyOne D (CbOp.nestedDispatch a :: rest) st
            = notifyOne D rest ((D (Action.plain a) st).2) from rfl,
        hex2, hex1, List.append_assoc]

/-- The notification pass only appends to the event trace. -/
theorem notifyAll_mono (D : DispatchFn) (hD : EventsMono D) :
    ∀ (subs : List (List CbOp)) (st : St),
      ∃ ex, (notifyAll D subs st).events = st.events ++ ex := by
  intro subs
  induction subs with
  | nil =>
    intro st
    exact ⟨[], by simp [notifyAll]⟩
  | cons cb rest ih =>
    intro st
    obtain ⟨ex1, hex1⟩ := notifyOne_mono D hD cb st
    obtain ⟨ex2, hex2⟩ := ih (notifyOne D cb st)
    refine ⟨ex1 ++ ex2, ?_⟩
    rw [show notifyAll D (cb :: rest) st = notifyAll D rest (notifyOne D cb st) from rfl,
      hex2, hex1, List.append_assoc]

/-- The terminal step only appends to the event trace. -/
theorem baseDispatch_mono (D : DispatchFn) (subs : List (List CbOp))
    (hD : EventsMono D) : EventsMono (baseDispatch D subs) := by
  intro a st
  cases a with
  | fn ops =>
    exact ⟨[], by simp [baseDispatch]⟩
  | plain p =>
    cases hflag : st.isDispatching with
    | true =>
      exact ⟨[], by simp [baseDispatch, hflag]⟩
    | false =>
      obtain ⟨ex, hex⟩ := notifyAll_mono D hD subs
        { state := rootReducer st.state p, isDispatching := true,
          events := st.events ++ [Event.reduced p] }
      refine ⟨Event.reduced p :: ex, ?_⟩
      simp only [baseDispatch, hflag, Bool.false_eq_true, if_false]
      rw [hex]
      simp

/-- The async middleware only appends to the event trace (given that the
container dispatch it hands to thunks, and the next link, do). -/
theorem asyncMiddleware_mono (D next : DispatchFn) (hD : EventsMono D)
    (hnext : EventsMono next) : EventsMono (asyncMiddleware (mkAPI D) next) := by
  intro a st
  cases a with
  | plain p => exact hnext (Action.plain p) st
  | fn ops =>
    obtain ⟨ex, hex⟩ := runThunk_mono (mkAPI D) hD ops (emit st (Event.asyncDetect ops))
    refine ⟨Event.asyncDetect ops :: ex, ?_⟩
    rw [show (asyncMiddleware (mkAPI D) next (Action.fn ops) st).2
          = (runThunk (mkAPI D) ops (emit st (Event.asyncDetect ops))).2 from rfl,
      hex, emit_events, List.append_assoc]
    rfl

/-- The full compiled dispatch only appends to the event trace, at every
fuel. -/
theorem dispatchF_mono (subs : List (List CbOp)) :
    ∀ (n : Nat), EventsMono (dispatchF subs n) := by
  intro n
  induction n with
  | zero =>
    intro a st
    exact ⟨[], by simp [dispatchF]⟩
  | succ n ih =>
    intro a st
    obtain ⟨ex, hex⟩ :=
      asyncMiddleware_mono (dispatchF subs n) (baseDispatch (dispatchF subs n) subs) ih
        (baseDispatch_mono (dispatchF subs n) subs ih) a
        (emit st (Event.logBefore a st.state))
    refine ⟨Event.logBefore a st.state :: (ex ++
      [Event.logAfter ((dispatchF subs (n + 1) a st).2).state]), ?_⟩
    rw [show ((dispatchF subs (n + 1) a st).2).events
          = ((asyncMiddleware (mkAPI (dispatchF subs n))
              (baseDispatch (dispatchF subs n) subs) a
              (emit st (Event.logBefore a st.state))).2).events
            ++ [Event.logAfter ((dispatchF subs (n + 1) a st).2).state] from rfl,
      hex, emit_events, List.append_assoc, List.append_assoc]
    rfl

/-- A thunk body with no synchronous dispatch returns undefined, leaves the
state and flag unchanged, and applies the transition function zero times
(no `reduced` event is added to the trace). -/
theorem runThunk_pure (api : MiddlewareAPI) :
    ∀ (ops : List ThunkOp) (st : St),
      ops.all (fun op => ! ThunkOp.isDispatchNow op) = true →
      (runThunk api ops st).1 = Except.ok RetVal.undef
      ∧ ((runThunk api ops st).2).state = st.state
      ∧ ((runThunk api ops st).2).isDispatching = st.isDispatching
      ∧ reducedCount ((runThunk api ops st).2).events = reducedCount st.events := by
  intro ops
  induction ops with
  | nil =>
    intro st _
    exact ⟨rfl, rfl, rfl, rfl⟩
  | cons op rest ih =>
    intro st hall
    rw [List.all_cons, Bool.and_eq_true] at hall
    cases op with
    | logState =>
      have h2 := ih (emit st (Event.thunkGetState (api.getState st))) hall.2
      refine ⟨h2.1, h2.2.1, h2.2.2.1, ?_⟩
      rw [show (runThunk api (ThunkOp.logState :: rest) st).2
            = (runThunk api rest (emit st (Event.thunkGetState (api.getState st)))).2 from rfl,
        h2.2.2.2, emit_events, reducedCount_append]
      simp [reducedCount, Event.isReduced]
    | setTimeout d later =>
      have h2 := ih (emit st (Event.scheduled d later)) hall.2
      refine ⟨h2.1, h2.2.1, h2.2.2.1, ?_⟩
      rw [show (runThunk api (ThunkOp.setTimeout d later :: rest) st).2
            = (runThunk api rest (emit st (Event.scheduled d later))).2 from rfl,
        h2.2.2.2, emit_events, reducedCount_append]
      simp [reducedCount, Event.isReduced]
    | dispatchNow a =>
      simp [ThunkOp.isDispatchNow] at hall

/-- Callbacks cannot change the `add` slice either (they can only log or
attempt guarded nested dispatches through a dispatch that preserves it). -/
theorem notifyOne_add (D : DispatchFn) (hD : PreservesAdd D) :
    ∀ (cb : List CbOp) (st : St), (notifyOne D cb st).state.add = st.state.add := by
  intro cb
  induction cb with
  | nil =>
    intro st
    rfl
  | cons op rest ih =>
    intro st
    cases op with
    | logState => exact ih (emit st (Event.notifyLog st.state))
    | nestedDispatch a =>
      exact (ih ((D (Action.plain a) st).2)).trans (hD (Action.plain a) st)

theorem notifyAll_add (D : DispatchFn) (hD : PreservesAdd D) :
    ∀ (subs : List (List CbOp)) (st : St),
      (notifyAll D subs st).state.add = st.state.add := by
  intro subs
  induction subs with
  | nil =>
    intro st
    rfl
  | cons cb rest ih =>
    intro st
    exact (ih (notifyOne D cb st)).trans (notifyOne_add D hD cb st)

theorem runThunk_add (api : MiddlewareAPI) (hD : PreservesAdd api.dispatch) :
    ∀ (ops : List ThunkOp) (st : St),
      ((runThunk api ops st).2).state.add = st.state.add := by
  intro ops
  induction ops with
  | nil =>
    intro st
    rfl
  | cons op rest ih =>
    intro st
    cases op with
    | logState => exact ih (emit st (Event.thunkGetState (api.getState st)))
    | setTimeout d later => exact ih (emit st (Event.scheduled d later))
    | dispatchNow a =>
      exact (ih ((api.dispatch (Action.plain a) st).2)).trans (hD (Action.plain a) st)

theorem baseDispatch_add (D : DispatchFn) (subs : List (List CbOp))
    (hD : PreservesAdd D) : PreservesAdd (baseDispatch D subs) := by
  intro a st
  cases a with
  | fn ops => rfl
  | plain p =>
    cases hflag : st.isDispatching with
    | true => simp [baseDispatch, hflag]
    | false =>
      have hN := notifyAll_add D hD subs
        { state := rootReducer st.state p, isDispatching := true,
          events := st.events ++ [Event.reduced p] }
      simp only [baseDispatch, hflag, Bool.false_eq_true, if_false]
      rw [show (rootReducer st.state p).add = st.state.add from rootReducer_add st.state p] at hN
      simpa using hN

/-- The full compiled dispatch never changes the `add` slice, at every
fuel: the only branch of `addReducer` that can ever run is its `default`. -/
theorem dispatchF_add (subs : List (List CbOp)) :
    ∀ (n : Nat), PreservesAdd (dispatchF subs n) := by
  intro n
  induction n with
  | zero =>
    intro a st
    rfl
  | succ n ih =>
    intro a st
    have hbase := baseDispatch_add (dispatchF subs n) subs ih
    cases a with
    | plain p =>
      exact hbase (Action.plain p) (emit st (Event.logBefore (Action.plain p) st.state))
    | fn ops =>
      exact runThunk_add (mkAPI (dispatchF subs n)) ih ops
        (emit (emit st (Event.logBefore (Action.fn ops) st.state)) (Event.asyncDetect ops))

theorem dispatchAll_add (acts : List Action) :
    ∀ (st : St), (dispatchAll storeDispatch acts st).state.add = st.state.add := by
  induction acts with
  | nil =>
    intro st
    rfl
  | cons a rest ih =>
    intro st
    exact (ih ((storeDispatch a st).2)).trans (dispatchF_add storeSubs 4 a st)

/-- The counter reducer returns its state argument identically on every
unrecognized tag (its `default` branch). -/
theorem counterReducer_unrecognized (s : CounterState) (t : String)
    (h1 : t ≠ "INCREMENT") (h2 : t ≠ "DECREMENT") (h3 : t ≠ "RESET")
    (h4 : t ≠ "INCREMENT_ASYNC") : counterReducer s { type := t } = s := by
  simp [counterReducer, h1, h2, h3, h4]

/-- The whole transition function is the identity on every unrecognized tag
(the counter slice hits its `default` branch and the add slice always does). -/
theorem rootReducer_unrecognized (rs : RootState) (t : String)
    (h1 : t ≠ "INCREMENT") (h2 : t ≠ "DECREMENT") (h3 : t ≠ "RESET")
    (h4 : t ≠ "INCREMENT_ASYNC") : rootReducer rs { type := t } = rs := by
  simp [rootReducer, counterReducer, addReducer, jsStrictEqStr, h1, h2, h3, h4]

/-- C1: Onion ordering of the interceptor chain.  For the container built
with the interceptors `[loggerMiddleware, asyncMiddleware]` in that order:
the compiled chain equals `logger(async(T))` with `T` the terminal
transition step (the logger is the outermost wrapper); for every dispatched
command the logger's entry log — carrying the command and the pre-dispatch
state — is the first event of the pass and its exit log — carrying the
settled post-transition state read via `getState` — is the last event, with
everything the async interceptor and the terminal step do strictly in
between; and for a function command the async interceptor's observation is
the event immediately after the logger's entry log (the logger observes
every command before the async interceptor). -/
theorem c1_onion_ordering :
    (∀ (api : MiddlewareAPI) (terminal : DispatchFn),
      compileChain api [loggerMiddleware, asyncMiddleware] terminal
        = loggerMiddleware api (asyncMiddleware api terminal))
    ∧ (∀ (a : Action) (st : St), ∃ mid,
      ((storeDispatch a st).2).events
        = st.events ++ [Event.logBefore a st.state] ++ mid
            ++ [Event.logAfter ((storeDispatch a st).2).state])
    ∧ (∀ (ops : List ThunkOp) (st : St), ∃ mid,
      ((storeDispatch (Action.fn ops) st).2).events
        = st.events ++ [Event.logBefore (Action.fn ops) st.state,
            Event.asyncDetect ops] ++ mid
            ++ [Event.logAfter ((storeDispatch (Action.fn ops) st).2).state]) := by
  refine ⟨fun api terminal => rfl, ?_, ?_⟩
  · intro a st
    obtain ⟨ex, hex⟩ :=
      asyncMiddleware_mono (dispatchF storeSubs 3)
        (baseDispatch (dispatchF storeSubs 3) storeSubs)
        (dispatchF_mono storeSubs 3)
        (baseDispatch_mono (dispatchF storeSubs 3) storeSubs (dispatchF_mono storeSubs 3))
        a (emit st (Event.logBefore a st.state))
    refine ⟨ex, ?_⟩
    rw [show ((storeDispatch a st).2).events
          = ((asyncMiddleware (mkAPI (dispatchF storeSubs 3))
              (baseDispatch (dispatchF storeSubs 3) storeSubs) a
              (emit st (Event.logBefore a st.state))).2).events
            ++ [Event.logAfter ((storeDispatch a st).2).state] from rfl,
      hex, emit_events]
  · intro ops st
    obtain ⟨ex, hex⟩ := runThunk_mono (mkAPI (dispatchF storeSubs 3))
      (dispatchF_mono storeSubs 3) ops
      (emit (emit st (Event.logBefore (Action.fn ops) st.state)) (Event.asyncDetect ops))
    refine ⟨ex, ?_⟩
    rw [show ((storeDispatch (Action.fn ops) st).2).events
          = ((runThunk (mkAPI (dispatchF storeSubs 3)) ops
              (emit (emit st (Event.logBefore (Action.fn ops) st.state))
                (Event.asyncDetect ops))).2).events
            ++ [Event.logAfter ((storeDispatch (Action.fn ops) st).2).state] from rfl,
      hex, emit_events, emit_events]
    simp [List.append_assoc]

/-- C2: Procedure-command recognition.  A command whose payload is a callable
procedure is recognized by the async interceptor: the result does not depend
on `next` at all (so the command is never forwarded down the chain);
handling it is exactly invoking the procedure with the container's
`dispatch` and `getState`; when the procedure performs no synchronous
dispatch (as incrementAsyncThunk, whose dispatch sits inside a scheduled
timer callback) the pass returns undefined, leaves the state unchanged and
applies the transition function zero times; dispatching
incrementAsyncThunk concretely only logs, schedules the delayed
`dispatch(increment())`, and leaves the state untouched — and when the
scheduled callback later runs, its dispatch of `increment` applies the
transition function in a fresh pass. -/
theorem c2_procedure_command :
    (∀ (api : MiddlewareAPI) (next1 next2 : DispatchFn) (ops : List ThunkOp) (st : St),
      asyncMiddleware api next1 (Action.fn ops) st
        = asyncMiddleware api next2 (Action.fn ops) st)
    ∧ (∀ (api : MiddlewareAPI) (next : DispatchFn) (ops : List ThunkOp) (st : St),
      asyncMiddleware api next (Action.fn ops) st
        = runThunk api ops (emit st (Event.asyncDetect ops)))
    ∧ (∀ (ops : List ThunkOp) (st : St),
      ops.all (fun op => ! ThunkOp.isDispatchNow op) = true →
      (storeDispatch (Action.fn ops) st).1 = Except.ok RetVal.undef
      ∧ ((storeDispatch (Action.fn ops) st).2).state = st.state
      ∧ reducedCount ((storeDispatch (Action.fn ops) st).2).events
          = reducedCount st.events)
    ∧ (∀ (st : St),
      (storeDispatch (Action.fn incrementAsyncThunkOps) st).1 = Except.ok RetVal.undef
      ∧ ((storeDispatch (Action.fn incrementAsyncThunkOps) st).2).state = st.state
      ∧ ((storeDispatch (Action.fn incrementAsyncThunkOps) st).2).events
          = st.events
            ++ [Event.logBefore (Action.fn incrementAsyncThunkOps) st.state,
                Event.asyncDetect incrementAsyncThunkOps,
                Event.thunkGetState st.state,
                Event.scheduled 1000 [ThunkOp.dispatchNow increment],
                Event.logAfter st.state])
    ∧ (∀ (st : St), st.isDispatching = false →
      ((runThunk (mkAPI storeDispatch) [ThunkOp.dispatchNow increment] st).2).state
        = rootReducer st.state increment) := by
  refine ⟨fun api next1 next2 ops st => rfl, fun api next ops st => rfl, ?_, ?_, ?_⟩
  · intro ops st hall
    have hp := runThunk_pure (mkAPI (dispatchF storeSubs 3)) ops
      (emit (emit st (Event.logBefore (Action.fn ops) st.state))
        (Event.asyncDetect ops)) hall
    refine ⟨hp.1, hp.2.1, ?_⟩
    rw [show ((storeDispatch (Action.fn ops) st).2).events
          = ((runThunk (mkAPI (dispatchF storeSubs 3)) ops
              (emit (emit st (Event.logBefore (Action.fn ops) st.state))
                (Event.asyncDetect ops))).2).events
            ++ [Event.logAfter ((storeDispatch (Action.fn ops) st).2).state] from rfl,
      reducedCount_append, hp.2.2.2, emit_events, emit_events,
      reducedCount_append, reducedCount_append]
    simp [reducedCount, Event.isReduced]
  · intro st
    refine ⟨rfl, rfl, ?_⟩
    rw [show ((storeDispatch (Action.fn incrementAsyncThunkOps) st).2).events
          = ((((st.events
              ++ [Event.logBefore (Action.fn incrementAsyncThunkOps) st.state])
              ++ [Event.asyncDetect incrementAsyncThunkOps])
              ++ [Event.thunkGetState st.state])
              ++ [Event.scheduled 1000 [ThunkOp.dispatchNow increment]])
              ++ [Event.logAfter st.state] from rfl]
    simp [List.append_assoc]
  · intro st h
    exact (dispatchF_plain_ok storeSubs 2 increment st h).2.1

/-- C2 witness: dispatching the concrete incrementAsyncThunk from the fresh
store leaves the state at its initial value, and running its scheduled
callback afterwards dispatches `increment` through the chain, applying the
transition function. -/
theorem c2_procedure_command_witness :
    ((storeDispatch (Action.fn incrementAsyncThunkOps) initialStore).2).state
      = initialRootState
    ∧ ((runThunk (mkAPI storeDispatch) [ThunkOp.dispatchNow increment]
        initialStore).2).state = rootReducer initialRootState increment := by
  refine ⟨?_, ?_⟩
  · exact (c2_procedure_command.2.2.1 incrementAsyncThunkOps initialStore (by decide)).2.1
  · exact c2_procedure_command.2.2.2.2 initialStore rfl

/-- C7: Counter scenario.  From the fresh store (counter slice at its
initial state with count 0), dispatching the increment command three times
yields a state whose counter count is 3; and the counter reducer — and with
it the whole transition function — returns its state argument identically
for every unrecognized tag, so a subsequent dispatch with an unrecognized
tag leaves the state unchanged. -/
theorem c7_counter_scenario :
    ((dispatchAll storeDispatch
        [Action.plain increment, Action.plain increment, Action.plain increment]
        initialStore).state.counter.count = 3)
    ∧ (∀ (s : CounterState) (t : String),
        t ≠ "INCREMENT" → t ≠ "DECREMENT" → t ≠ "RESET" → t ≠ "INCREMENT_ASYNC" →
        counterReducer s { type := t } = s)
    ∧ (∀ (rs : RootState) (t : String),
        t ≠ "INCREMENT" → t ≠ "DECREMENT" → t ≠ "RESET" → t ≠ "INCREMENT_ASYNC" →
        rootReducer rs { type := t } = rs)
    ∧ (∀ (st : St) (t : String), st.isDispatching = false →
        t ≠ "INCREMENT" → t ≠ "DECREMENT" → t ≠ "RESET" → t ≠ "INCREMENT_ASYNC" →
        ((storeDispatch (Action.plain { type := t }) st).2).state = st.state) := by
  refine ⟨rfl, counterReducer_unrecognized, rootReducer_unrecognized, ?_⟩
  intro st t hf h1 h2 h3 h4
  exact ((dispatchF_plain_ok storeSubs 2 { type := t } st hf).2.1).trans
    (rootReducer_unrecognized st.state t h1 h2 h3 h4)

/-- C7 witness: the scenario instantiated — the reducers are the identity on
the concrete unrecognized tag "NOOP", and a NOOP dispatch after the three
increments leaves the state unchanged. -/
theorem c7_counter_scenario_witness :
    counterReducer counterInitialState { type := "NOOP" } = counterInitialState
    ∧ rootReducer initialRootState { type := "NOOP" } = initialRootState :=
  ⟨c7_counter_scenario.2.1 counterInitialState "NOOP"
      (by decide) (by decide) (by decide) (by decide),
   c7_counter_scenario.2.2.1 initialRootState "NOOP"
      (by decide) (by decide) (by decide) (by decide)⟩

/-- C8: Dispatch purity.  For every initial state `s0` and plain commands
`a1`, `a2`, the state observed after dispatching `a1` then `a2` through the
full interceptor chain equals `rootReducer (rootReducer s0 a1) a2` computed
directly: the logger and async interceptors forward plain commands
unmodified and return the inner result unmodified, and the chain adds no
hidden state. -/
theorem c8_dispatch_purity (s0 : RootState) (ev : List Event) (a1 a2 : PlainAction) :
    ((storeDispatch (Action.plain a2)
        ((storeDispatch (Action.plain a1)
          { state := s0, isDispatching := false, events := ev }).2)).2).state
      = rootReducer (rootReducer s0 a1) a2 := by
  have h1 := dispatchF_plain_ok storeSubs 2 a1
    { state := s0, isDispatching := false, events := ev } rfl
  have h2 := dispatchF_plain_ok storeSubs 2 a2
    ((dispatchF storeSubs 4 (Action.plain a1)
      { state := s0, isDispatching := false, events := ev }).2) h1.2.2
  exact h2.2.1.trans (by rw [h1.2.1])

/-- C9: Re-entrancy guard.  Any dispatch on the container while another
dispatch on the same container is in progress (the flag is set, as it is
throughout the transition and notification phases) fails with
ReentrantDispatchError and leaves the state unchanged (only log events are
appended); and an outer dispatch started when no dispatch is in progress
completes normally — returning the action and storing the transition
function's output — for arbitrary subscribers, including subscribers that
attempt nested dispatches from inside the notification pass. -/
theorem c9_reentrancy_guard :
    (∀ (subs : List (List CbOp)) (a : PlainAction) (st : St),
      st.isDispatching = true →
      (dispatchTop subs (Action.plain a) st).1 = Except.error DispatchError.reentrant
      ∧ ((dispatchTop subs (Action.plain a) st).2).state = st.state
      ∧ ((dispatchTop subs (Action.plain a) st).2).isDispatching = true)
    ∧ (∀ (subs : List (List CbOp)) (a : PlainAction) (st : St),
      st.isDispatching = false →
      (dispatchTop subs (Action.plain a) st).1 = Except.ok (RetVal.ract a)
      ∧ ((dispatchTop subs (Action.plain a) st).2).state = rootReducer st.state a
      ∧ ((dispatchTop subs (Action.plain a) st).2).isDispatching = false) := by
  constructor
  · intro subs a st h
    have hre := dispatchF_reentrant subs 3 a st h
    exact ⟨congrArg Prod.fst hre,
      congrArg (fun p => p.2.state) hre,
      (congrArg (fun p => p.2.isDispatching) hre).trans h⟩
  · intro subs a st h
    exact ⟨(dispatchF_plain_ok subs 2 a st h).1,
      (dispatchF_plain_ok subs 2 a st h).2.1,
      (dispatchF_plain_ok subs 2 a st h).2.2⟩

/-- C9 witness: with a subscriber that attempts a nested dispatch, a
dispatch started while the flag is set errors with ReentrantDispatchError,
and an outer dispatch from the fresh store still completes and stores the
transition function's output. -/
theorem c9_reentrancy_guard_witness :
    (dispatchTop [[CbOp.nestedDispatch increment]] (Action.plain increment)
        { state := initialRootState, isDispatching := true, events := [] }).1
      = Except.error DispatchError.reentrant
    ∧ ((dispatchTop [[CbOp.nestedDispatch increment]] (Action.plain increment)
        initialStore).2).state = rootReducer initialRootState increment :=
  ⟨(c9_reentrancy_guard.1 [[CbOp.nestedDispatch increment]] increment
      { state := initialRootState, isDispatching := true, events := [] } rfl).1,
   (c9_reentrancy_guard.2 [[CbOp.nestedDispatch increment]] increment
      initialStore rfl).2.1⟩

/-- C10: The add reducer is inert.  Every action that reaches a reducer is
an object, and `addReducer` compares its whole second argument — the action
object — against the string literals, so both `case` branches are
unreachable and it returns its state argument unchanged; consequently after
any sequence of dispatches from the fresh store the add slice is still
`{ count := 0 }`. -/
theorem c10_add_reducer_inert :
    (∀ (s : AddState) (a : PlainAction), addReducer s (JSVal.actionObj a) = s)
    ∧ (∀ (acts : List Action),
      (dispatchAll storeDispatch acts initialStore).state.add = addInitialState) := by
  constructor
  · intro s a
    rfl
  · intro acts
    exact dispatchAll_add acts initialStore

end ReactReduxDemo
